import Mathlib

/-!
Verification of the solana-vesting-contract repository: a single-grant token
vesting escrow.  The repository ships the off-chain client and test
scaffolding in TypeScript; the on-chain program (instructions `initVesting`
and `claimVesting`, account type `VestingState`) is invoked through its IDL
but its source is not part of the repository, so the escrow state machine is
modelled from the specification and the client/test code is embedded from
source.
-/

namespace SolVesting

/-- Opaque ledger addresses and identities (public keys), modelled as naturals. -/
abbrev PubKey := Nat

/-- Modelled from the spec: the on-chain `VestingState` account is absent from
the repository sources (the tests fetch and assert on its fields `funder`,
`receiver`, `amount`, `isInitialized`).  One record per grant: funder,
receiver, vault reference, escrowed amount, vesting deadline (seconds since
epoch) and the lifecycle flag that is `true` while pending and flips to
`false` at the single successful claim. -/
structure VestingState where
  funder : PubKey
  receiver : PubKey
  vault : PubKey
  amount : Nat
  vestingEnd : Int
  isInitialized : Bool
deriving DecidableEq, Repr

/-- Typed failure results of the two instructions, as listed by the
specification's error-handling design. -/
inductive VError where
  | InvalidAmount
  | InvalidDeadline
  | InsufficientFunds
  | Unauthorized
  | NotMatured
  | AlreadySettled
  | RecipientMismatch
deriving DecidableEq, Repr

/-- The external ledger's account store: token-account balances, the identity
owning each token account, and the vesting records keyed by account address. -/
structure Chain where
  balance : PubKey → Nat
  owner : PubKey → PubKey
  state : PubKey → Option VestingState

/-- Pointwise update of an account map. -/
def upd {α : Type} (f : PubKey → α) (k : PubKey) (v : α) : PubKey → α :=
  fun x => if x = k then v else f x

/-- Modelled from the spec: the trusted fungible-token transfer primitive,
atomic and all-or-nothing, between two token accounts. -/
def transfer (bal : PubKey → Nat) (src dst : PubKey) (amt : Nat) : PubKey → Nat :=
  if src = dst then bal
  else upd (upd bal src (bal src - amt)) dst (bal dst + amt)

/-- The ledger effect of a successful `initVesting`: the new pending record is
written at `sr` and `amt` tokens move from the funder's token account `fta`
into the vault `vr`. -/
def initApply (c : Chain) (sr vr f fta r : PubKey) (amt : Nat) (ve : Int) : Chain :=
  { balance := transfer c.balance fta vr amt
    owner := c.owner
    state := upd c.state sr (some ⟨f, r, vr, amt, ve, true⟩) }

/-- Modelled from the spec: the on-chain `initVesting` instruction, whose
source is not in the repository (the tests call it through the IDL).  The
dispatcher first checks the funder's signature and that the record account is
freshly allocated (the ledger rejects re-creation of an existing account;
surfaced here as `Unauthorized`), then the state machine checks
`amount > 0`, `vestingEnd > now` and the funder's balance, and on success
writes the pending record and funds the vault.  Every failure returns the
chain unchanged. -/
def initVesting (c : Chain) (sr vr f fta r : PubKey) (amt : Nat) (ve now : Int)
    (signers : List PubKey) : Except VError Unit × Chain :=
  if f ∉ signers then (.error .Unauthorized, c)
  else if c.state sr ≠ none then (.error .Unauthorized, c)
  else if amt = 0 then (.error .InvalidAmount, c)
  else if ve ≤ now then (.error .InvalidDeadline, c)
  else if c.balance fta < amt then (.error .InsufficientFunds, c)
  else (.ok (), initApply c sr vr f fta r amt ve)

/-- The ledger effect of a successful `claimVesting`: the full vault balance
moves to the recipient's token account `rta` and the record at `k` is marked
settled. -/
def claimApply (c : Chain) (k rta : PubKey) (vs : VestingState) : Chain :=
  { balance := transfer c.balance vs.vault rta (c.balance vs.vault)
    owner := c.owner
    state := upd c.state k (some { vs with isInitialized := false }) }

/-- Modelled from the spec: the on-chain `claimVesting` instruction, whose
source is not in the repository (the tests and client call it through the
IDL).  Checks, in order: the record is pending (`isInitialized = true`, else
`AlreadySettled`; a missing record is likewise not pending), the deadline has
passed with an inclusive boundary (`now ≥ vestingEnd`, else `NotMatured`),
and the presented token account belongs to the recorded receiver (else
`RecipientMismatch`).  On success the full vault balance is transferred to
the recipient account and the record is settled.  Every failure returns the
chain unchanged. -/
def claimVesting (c : Chain) (k rta : PubKey) (now : Int) : Except VError Unit × Chain :=
  (c.state k).elim (.error .AlreadySettled, c) fun vs =>
    if vs.isInitialized = false then (.error .AlreadySettled, c)
    else if now < vs.vestingEnd then (.error .NotMatured, c)
    else if c.owner rta ≠ vs.receiver then (.error .RecipientMismatch, c)
    else (.ok (), claimApply c k rta vs)

/-- Modelled from the spec: the dispatcher surface of `claimVesting`.  The
client submits it with an empty signer list; the submitter's identity and
signature set are accepted but never consulted, since eligibility is enforced
by the state machine itself. -/
def claimVestingRpc (c : Chain) (k rta : PubKey) (now : Int)
    (submitter : PubKey) (signers : List PubKey) : Except VError Unit × Chain :=
  claimVesting c k rta now

/-- A ledger request: one of the two instructions with its arguments. -/
inductive Op where
  | init (sr vr f fta r : PubKey) (amt : Nat) (ve now : Int) (signers : List PubKey)
  | claim (k rta : PubKey) (now : Int)

/-- Execute one request against the chain. -/
def exec (c : Chain) : Op → Except VError Unit × Chain
  | .init sr vr f fta r amt ve now sg => initVesting c sr vr f fta r amt ve now sg
  | .claim k rta now => claimVesting c k rta now

/-- Execute a list of requests in order, keeping the resulting chain. -/
def execList (c : Chain) : List Op → Chain
  | [] => c
  | op :: ops => execList (exec c op).2 ops

/-- The accounts a `claimVesting` transaction names, as assembled by the
off-chain client helper (vesting state key, vault, recipient token account;
the constant token-program and clock sysvar accounts carry no data here). -/
structure ClaimRpcAccounts where
  vestingState : PubKey
  vault : PubKey
  recipient : PubKey
deriving DecidableEq, Repr

/-- Shallow embedding of the off-chain client helper `claimVesting`:
it fetches the `VestingState` (`fetched`), reads the clock once
(`currentTimestamp`), and submits a `claimVesting` transaction exactly when
`currentTimestamp >= vestingEnd`, passing the fetched state's own `vault` and
`receiver` as the vault and recipient accounts; otherwise it only logs and
performs no ledger call (`none`). -/
def clientClaimVesting (vestingStateKey : PubKey) (fetched : VestingState)
    (currentTimestamp : Int) : Option ClaimRpcAccounts :=
  if currentTimestamp ≥ fetched.vestingEnd then
    some { vestingState := vestingStateKey, vault := fetched.vault, recipient := fetched.receiver }
  else none

/-- The `NodeEnv` enum of the client configuration module. -/
inductive NodeEnv where
  | PROD
  | DEV
  | TEST
deriving DecidableEq, Repr

/-- String value of each `NodeEnv` member (PROD = "prd", DEV = "dev",
TEST = "test"). -/
def NodeEnv.toStr : NodeEnv → String
  | .PROD => "prd"
  | .DEV => "dev"
  | .TEST => "test"

/-- Decoding of a string into the `NodeEnv` native enum, as
`z.nativeEnum(NodeEnv)` accepts exactly the enum's values. -/
def NodeEnv.fromString (s : String) : Option NodeEnv :=
  if s = "prd" then some .PROD
  else if s = "dev" then some .DEV
  else if s = "test" then some .TEST
  else none

/-- The part of `process.env` the configuration schema reads; `none` means
the variable is unset. -/
structure ProcessEnv where
  NODE_ENV : Option String
  IDL : Option String

/-- A successfully parsed client configuration. -/
structure Config where
  NODE_ENV : NodeEnv
  IDL : String
deriving DecidableEq, Repr

/-- Shallow embedding of `configSchema.parse` from the client configuration:
`IDL` is a required string (parsing fails when it is unset), `NODE_ENV`
defaults to `PROD` ("prd") when unset and otherwise must be one of the enum
values "prd", "dev", "test"; `none` models a thrown `ZodError`. -/
def configSchemaParse (e : ProcessEnv) : Option Config :=
  match e.IDL with
  | none => none
  | some idl =>
    match e.NODE_ENV with
    | none => some { NODE_ENV := .PROD, IDL := idl }
    | some s => (NodeEnv.fromString s).map fun ne => { NODE_ENV := ne, IDL := idl }

/-- A concrete pending vesting record used by the witnesses. -/
def tvs : VestingState :=
  { funder := 1, receiver := 2, vault := 3, amount := 500, vestingEnd := 100,
    isInitialized := true }

/-- A concrete chain used by the witnesses: vault 3 holds the 500 escrowed
tokens of the record stored at 9; token account 4 belongs to receiver 2;
token account 10 belongs to funder 1 and holds 800 tokens. -/
def testChain : Chain :=
  { balance := fun x => if x = 3 then 500 else if x = 4 then 7 else if x = 10 then 800 else 0
    owner := fun x => if x = 4 then 2 else if x = 10 then 1 else 0
    state := fun x => if x = 9 then some tvs else none }

/-- Inversion of a successful claim: the record was pending, the deadline had
passed, the token account belongs to the receiver, and the resulting chain is
the claim effect. -/
theorem claim_ok_inv {c : Chain} {k rta : PubKey} {now : Int} {c' : Chain}
    (h : claimVesting c k rta now = (.ok (), c')) :
    ∃ vs, c.state k = some vs ∧ vs.isInitialized = true ∧ vs.vestingEnd ≤ now ∧
      c.owner rta = vs.receiver ∧ c' = claimApply c k rta vs := by
  unfold claimVesting at h
  cases hs : c.state k with
  | none => rw [hs] at h; simp [Option.elim] at h
  | some vs =>
    rw [hs] at h
    simp only [Option.elim] at h
    split_ifs at h with h1 h2 h3
    · simp at h
    · simp at h
    · simp at h
    · refine ⟨vs, rfl, ?_, not_lt.mp h2, not_not.mp h3, ?_⟩
      · simpa using h1
      · exact ((Prod.mk.injEq _ _ _ _).mp h).2.symm

/-- Reduction of `claimVesting` on a pending, matured record presented with a
token account of the recorded receiver: it succeeds with the claim effect. -/
theorem claim_success_eq {c : Chain} {k rta : PubKey} {now : Int} {vs : VestingState}
    (hs : c.state k = some vs) (hinit : vs.isInitialized = true)
    (hmat : vs.vestingEnd ≤ now) (hown : c.owner rta = vs.receiver) :
    claimVesting c k rta now = (.ok (), claimApply c k rta vs) := by
  have h2 : ¬ now < vs.vestingEnd := not_lt.mpr hmat
  simp [claimVesting, hs, Option.elim, hinit, h2, hown]

/-- Inversion of a successful initialization: all preconditions held and the
resulting chain is the initialization effect. -/
theorem init_ok_inv {c : Chain} {sr vr f fta r : PubKey} {amt : Nat} {ve now : Int}
    {sg : List PubKey} {c₁ : Chain}
    (h : initVesting c sr vr f fta r amt ve now sg = (.ok (), c₁)) :
    f ∈ sg ∧ c.state sr = none ∧ 0 < amt ∧ now < ve ∧ amt ≤ c.balance fta ∧
      c₁ = initApply c sr vr f fta r amt ve := by
  unfold initVesting at h
  split_ifs at h with h1 h2 h3 h4 h5 <;> simp at h
  exact ⟨h1, not_not.mp h2, Nat.pos_of_ne_zero h3, not_le.mp h4, not_lt.mp h5, h.symm⟩

/-- One ledger request never un-settles a record: a settled record survives
any `init` (which requires a fresh account) and any `claim` (which fails on a
settled record and only rewrites its own record on success). -/
theorem settled_preserved {c : Chain} {k : PubKey} {vs : VestingState}
    (hs : c.state k = some vs) (hset : vs.isInitialized = false) (op : Op) :
    (exec c op).2.state k = some vs := by
  cases op with
  | init sr vr f fta r amt ve now sg =>
    simp only [exec, initVesting]
    split_ifs with h1 h2 h3 h4 h5
    any_goals exact hs
    simp only [initApply, upd]
    split_ifs with hk
    · exfalso
      rw [hk, not_not.mp h2] at hs
      exact Option.noConfusion hs
    · exact hs
  | claim k' rta now =>
    simp only [exec, claimVesting]
    cases hsk : c.state k' with
    | none => exact hs
    | some vs' =>
      simp only [Option.elim]
      split_ifs with h1 h2 h3
      any_goals exact hs
      simp only [claimApply, upd]
      split_ifs with hk
      · exfalso
        rw [hk, hsk] at hs
        obtain rfl : vs' = vs := (Option.some.injEq _ _).mp hs
        exact h1 hset
      · exact hs

/-- A settled record survives any list of subsequent ledger requests. -/
theorem settled_preserved_list {c : Chain} {k : PubKey} {vs : VestingState}
    (hs : c.state k = some vs) (hset : vs.isInitialized = false) (ops : List Op) :
    (execList c ops).state k = some vs := by
  induction ops generalizing c with
  | nil => exact hs
  | cons op ops ih => exact ih (settled_preserved hs hset op)

/-- Claim C1: at most one claim ever succeeds per vesting record: after a
successful claim the record is settled (`isInitialized = false`), and every
subsequent claim attempt on that record — after any further list of ledger
requests — fails with `AlreadySettled`, with no state change and no token
movement (the chain is returned unchanged). -/
theorem claim_settles_forever (c : Chain) (k rta : PubKey) (now : Int) (c' : Chain)
    (h : claimVesting c k rta now = (.ok (), c'))
    (ops : List Op) (rta' : PubKey) (now' : Int) :
    claimVesting (execList c' ops) k rta' now' = (.error .AlreadySettled, execList c' ops) := by
  obtain ⟨vs, hs, hinit, hmat, hown, hc'⟩ := claim_ok_inv h
  have hsettled : c'.state k = some { vs with isInitialized := false } := by
    rw [hc']; simp [claimApply, upd]
  have hfin : (execList c' ops).state k = some { vs with isInitialized := false } :=
    settled_preserved_list hsettled rfl ops
  simp [claimVesting, hfin, Option.elim]

/-- Chain resulting from the successful witness claim on `testChain`. -/
def testChainSettled : Chain := (claimVesting testChain 9 4 100).2

/-- Witness for C1 at a concrete chain: the claim at time 100 succeeds and
the repeat claim at time 101 is `AlreadySettled` with no change. -/
theorem claim_settles_forever_witness :
    claimVesting (execList testChainSettled []) 9 4 101 =
      (.error .AlreadySettled, execList testChainSettled []) :=
  claim_settles_forever testChain 9 4 100 testChainSettled rfl [] 4 101

/-- Claim C2: the deadline is inclusive: on a pending record presented with a
token account of the recorded receiver, a claim at `now = vestingEnd`
succeeds, while a claim at `now = vestingEnd - 1` fails with `NotMatured`
and leaves the chain unchanged. -/
theorem claim_deadline_inclusive (c : Chain) (k rta : PubKey) (vs : VestingState)
    (hs : c.state k = some vs) (hinit : vs.isInitialized = true)
    (hown : c.owner rta = vs.receiver) :
    (claimVesting c k rta vs.vestingEnd).1 = .ok () ∧
    claimVesting c k rta (vs.vestingEnd - 1) = (.error .NotMatured, c) := by
  constructor
  · rw [claim_success_eq hs hinit le_rfl hown]
  · have hlt : vs.vestingEnd - 1 < vs.vestingEnd := by omega
    simp [claimVesting, hs, Option.elim, hinit, hlt]

/-- Witness for C2 at a concrete chain whose record has `vestingEnd = 100`. -/
theorem claim_deadline_inclusive_witness :
    (claimVesting testChain 9 4 tvs.vestingEnd).1 = .ok () ∧
    claimVesting testChain 9 4 (tvs.vestingEnd - 1) = (.error .NotMatured, testChain) :=
  claim_deadline_inclusive testChain 9 4 tvs rfl rfl rfl

/-- Claim C3: a successful claim on a pending record transfers the full vault
balance to the receiver's token account — which gains exactly the recorded
amount while the vault drops to 0 — and settles the record in the same
atomic step. -/
theorem claim_transfers_full_vault (c : Chain) (k rta : PubKey) (now : Int)
    (vs : VestingState) (hs : c.state k = some vs) (hinit : vs.isInitialized = true)
    (hmat : vs.vestingEnd ≤ now) (hown : c.owner rta = vs.receiver)
    (hne : rta ≠ vs.vault) (hbal : c.balance vs.vault = vs.amount) :
    (claimVesting c k rta now).1 = .ok () ∧
    (claimVesting c k rta now).2.balance rta = c.balance rta + vs.amount ∧
    (claimVesting c k rta now).2.balance vs.vault = 0 ∧
    (claimVesting c k rta now).2.state k = some { vs with isInitialized := false } := by
  rw [claim_success_eq hs hinit hmat hown]
  have hvne : vs.vault ≠ rta := Ne.symm hne
  refine ⟨rfl, ?_, ?_, ?_⟩
  · simp [claimApply, transfer, upd, hvne, hbal]
  · simp [claimApply, transfer, upd, hvne]
  · simp [claimApply, upd]

/-- Witness for C3: claiming the concrete pending grant moves its 500 tokens
(receiver account 4 goes from 7 to 507, vault 3 to 0) and settles record 9. -/
theorem claim_transfers_full_vault_witness :
    (claimVesting testChain 9 4 100).1 = .ok () ∧
    (claimVesting testChain 9 4 100).2.balance 4 = testChain.balance 4 + tvs.amount ∧
    (claimVesting testChain 9 4 100).2.balance tvs.vault = 0 ∧
    (claimVesting testChain 9 4 100).2.state 9 = some { tvs with isInitialized := false } :=
  claim_transfers_full_vault testChain 9 4 100 tvs rfl rfl (by decide) rfl
    (by decide) rfl

/-- Claim C4: after a successful initialization, any claim strictly before
the deadline fails with `NotMatured` and leaves the whole chain — vault
balance, the vesting record, and every token account — unchanged. -/
theorem claim_before_deadline_not_matured (c : Chain) (sr vr f fta r : PubKey)
    (amt : Nat) (ve now : Int) (sg : List PubKey) (c₁ : Chain)
    (hok : initVesting c sr vr f fta r amt ve now sg = (.ok (), c₁))
    (rta : PubKey) (now' : Int) (hlt : now' < ve) :
    claimVesting c₁ sr rta now' = (.error .NotMatured, c₁) := by
  obtain ⟨-, -, -, -, -, hc₁⟩ := init_ok_inv hok
  have hsr : c₁.state sr = some ⟨f, r, vr, amt, ve, true⟩ := by
    rw [hc₁]; simp [initApply, upd]
  simp [claimVesting, hsr, Option.elim, hlt]

/-- Chain resulting from the successful witness initialization on
`testChain`: record 11, vault 12, 50 tokens, deadline 200, initialized at
time 150. -/
def testChainInit : Chain := (initVesting testChain 11 12 1 10 2 50 200 150 [1]).2

/-- Witness for C4: a claim at time 199 on the freshly initialized concrete
grant (deadline 200) is `NotMatured` and changes nothing. -/
theorem claim_before_deadline_not_matured_witness :
    claimVesting testChainInit 11 4 199 = (.error .NotMatured, testChainInit) :=
  claim_before_deadline_not_matured testChain 11 12 1 10 2 50 200 150 [1]
    testChainInit rfl 4 199 (by decide)

/-- Claim C5: a valid initialization (funder signed, fresh record account,
positive amount, future deadline, sufficient funder balance) succeeds,
creates the pending record with exactly the given funder, recipient and
amount (`isInitialized = true`), and moves exactly `amt` tokens from the
funder's token account into the vault. -/
theorem init_creates_state_and_funds_vault (c : Chain) (sr vr f fta r : PubKey)
    (amt : Nat) (ve now : Int) (sg : List PubKey)
    (hsig : f ∈ sg) (hfresh : c.state sr = none) (hamt : 0 < amt)
    (hdl : now < ve) (hbal : amt ≤ c.balance fta) (hne : fta ≠ vr) :
    initVesting c sr vr f fta r amt ve now sg = (.ok (), initApply c sr vr f fta r amt ve) ∧
    (initApply c sr vr f fta r amt ve).state sr = some ⟨f, r, vr, amt, ve, true⟩ ∧
    (initApply c sr vr f fta r amt ve).balance fta = c.balance fta - amt ∧
    (initApply c sr vr f fta r amt ve).balance vr = c.balance vr + amt := by
  refine ⟨?_, ?_, ?_, ?_⟩
  · have h4 : ¬ ve ≤ now := not_le.mpr hdl
    have h5 : ¬ c.balance fta < amt := not_lt.mpr hbal
    simp [initVesting, hsig, hfresh, hamt.ne', h4, h5]
  · simp [initApply, upd]
  · simp [initApply, transfer, upd, hne]
  · simp [initApply, transfer, upd, hne]

/-- Witness for C5: initializing a 50-token grant on the concrete chain
creates record 11 and moves 50 tokens from funder account 10 into vault 12. -/
theorem init_creates_state_and_funds_vault_witness :
    initVesting testChain 11 12 1 10 2 50 200 150 [1] =
      (.ok (), initApply testChain 11 12 1 10 2 50 200) ∧
    (initApply testChain 11 12 1 10 2 50 200).state 11 = some ⟨1, 2, 12, 50, 200, true⟩ ∧
    (initApply testChain 11 12 1 10 2 50 200).balance 10 = testChain.balance 10 - 50 ∧
    (initApply testChain 11 12 1 10 2 50 200).balance 12 = testChain.balance 12 + 50 :=
  init_creates_state_and_funds_vault testChain 11 12 1 10 2 50 200 150 [1]
    (by decide) rfl (by decide) (by decide) (by decide) (by decide)

/-- Claim C6: an otherwise-valid initialization with `amount = 0` fails with
`InvalidAmount`, creating no record and moving no tokens; and every failing
initialization whatsoever — `InvalidAmount`, `InvalidDeadline`,
`InsufficientFunds` or `Unauthorized`, with no restriction on the request —
is all-or-nothing, returning the chain exactly as it was. -/
theorem init_zero_amount_rejected_atomic (c : Chain) (sr vr f fta r : PubKey)
    (amt : Nat) (ve now : Int) (sg : List PubKey) (e : VError) (c' : Chain) :
    (f ∈ sg → c.state sr = none →
      initVesting c sr vr f fta r 0 ve now sg = (.error .InvalidAmount, c)) ∧
    (initVesting c sr vr f fta r amt ve now sg = (.error e, c') → c' = c) := by
  constructor
  · intro hsig hfresh
    simp [initVesting, hsig, hfresh]
  · intro h
    unfold initVesting at h
    split_ifs at h
    all_goals simp only [Prod.mk.injEq] at h
    all_goals first
      | exact h.2.symm
      | simp at h

/-- Witness for C6: the zero-amount initialization on the concrete chain is
rejected with `InvalidAmount`, and the all-or-nothing conjunct applied to a
concrete `Unauthorized` failure (empty signer list) gives back the unchanged
chain. -/
theorem init_zero_amount_rejected_atomic_witness :
    initVesting testChain 11 12 1 10 2 0 200 150 [1] = (.error .InvalidAmount, testChain) ∧
    testChain = testChain :=
  ⟨(init_zero_amount_rejected_atomic testChain 11 12 1 10 2 0 200 150 [1]
      .InvalidAmount testChain).1 (by decide) rfl,
   (init_zero_amount_rejected_atomic testChain 11 12 1 10 2 50 200 150 []
      .Unauthorized testChain).2 rfl⟩

/-- Case analysis of one request's effect on an existing record slot: the
slot is unchanged, or was empty, or holds the settled copy of what it held. -/
theorem exec_state_cases (c : Chain) (op : Op) (k : PubKey) :
    (exec c op).2.state k = c.state k ∨ c.state k = none ∨
    (∃ vs, c.state k = some vs ∧
      (exec c op).2.state k = some { vs with isInitialized := false }) := by
  cases op with
  | init sr vr f fta r amt ve now sg =>
    simp only [exec, initVesting]
    split_ifs with h1 h2 h3 h4 h5
    any_goals (refine Or.inl ?_; rfl)
    simp only [initApply, upd]
    split_ifs with hk
    · exact Or.inr (Or.inl (hk ▸ not_not.mp h2))
    · exact Or.inl rfl
  | claim k' rta now =>
    simp only [exec, claimVesting]
    cases hsk : c.state k' with
    | none => exact Or.inl rfl
    | some vs' =>
      simp only [Option.elim]
      split_ifs with h1 h2 h3
      any_goals (refine Or.inl ?_; rfl)
      simp only [claimApply, upd]
      split_ifs with hk
      · exact Or.inr (Or.inr ⟨vs', hk ▸ hsk, rfl⟩)
      · exact Or.inl rfl

/-- Claim C7: frame property: no instruction ever changes the `funder`,
`receiver`, `vault`, `amount` or `vestingEnd` fields of an existing vesting
record; only `isInitialized` may differ afterwards. -/
theorem record_fields_immutable (c : Chain) (k : PubKey) (vs : VestingState)
    (hs : c.state k = some vs) (op : Op) (vs' : VestingState)
    (hs' : (exec c op).2.state k = some vs') :
    vs'.funder = vs.funder ∧ vs'.receiver = vs.receiver ∧ vs'.vault = vs.vault ∧
    vs'.amount = vs.amount ∧ vs'.vestingEnd = vs.vestingEnd := by
  rcases exec_state_cases c op k with hcase | hcase | ⟨vs₀, hvs₀, hcase⟩
  · rw [hcase, hs] at hs'
    obtain rfl := Option.some.inj hs'
    exact ⟨rfl, rfl, rfl, rfl, rfl⟩
  · rw [hcase] at hs
    exact Option.noConfusion hs
  · rw [hs] at hvs₀
    obtain rfl := Option.some.inj hvs₀
    rw [hcase] at hs'
    obtain rfl := Option.some.inj hs'
    exact ⟨rfl, rfl, rfl, rfl, rfl⟩

/-- Witness for C7: the successful claim on the concrete chain only flips the
flag of record 9; all five other fields are untouched. -/
theorem record_fields_immutable_witness :
    ({ tvs with isInitialized := false } : VestingState).funder = tvs.funder ∧
    ({ tvs with isInitialized := false } : VestingState).receiver = tvs.receiver ∧
    ({ tvs with isInitialized := false } : VestingState).vault = tvs.vault ∧
    ({ tvs with isInitialized := false } : VestingState).amount = tvs.amount ∧
    ({ tvs with isInitialized := false } : VestingState).vestingEnd = tvs.vestingEnd :=
  record_fields_immutable testChain 9 tvs rfl (Op.claim 9 4 100)
    { tvs with isInitialized := false } rfl

/-- Claim C8: the outcome of a claim does not depend on who submits it: the
dispatcher consults neither the submitter's identity nor any signature for
`claimVesting`, so any two submitters with any signer lists obtain the
identical result and identical post-state, funds going to the recorded
receiver either way. -/
theorem claim_submitter_irrelevant (c : Chain) (k rta : PubKey) (now : Int)
    (s₁ s₂ : PubKey) (sg₁ sg₂ : List PubKey) :
    claimVestingRpc c k rta now s₁ sg₁ = claimVestingRpc c k rta now s₂ sg₂ := rfl

/-- Claim C9: the off-chain claim helper reads the clock once and submits a
transaction exactly when that timestamp has reached the fetched state's
`vestingEnd`; the accounts it passes are precisely the vault and receiver
recorded in the fetched state, and before the deadline it performs no
ledger-mutating call at all. -/
theorem client_claim_gate (k : PubKey) (st : VestingState) (now : Int) :
    (st.vestingEnd ≤ now →
      clientClaimVesting k st now =
        some { vestingState := k, vault := st.vault, recipient := st.receiver }) ∧
    (now < st.vestingEnd → clientClaimVesting k st now = none) := by
  constructor
  · intro h; simp [clientClaimVesting, h]
  · intro h; simp [clientClaimVesting, not_le.mpr h]

/-- Witness for C9: at time 100 the helper submits for the concrete state
(deadline 100), passing its recorded vault and receiver. -/
theorem client_claim_gate_witness :
    clientClaimVesting 7 tvs 100 =
      some { vestingState := 7, vault := tvs.vault, recipient := tvs.receiver } :=
  (client_claim_gate 7 tvs 100).1 (by decide)

/-- Claim C10: configuration parsing fails for every environment in which
`IDL` is unset; with `IDL` set, an unset `NODE_ENV` defaults to `PROD`
("prd"), and a set `NODE_ENV` is accepted exactly for the three values
"prd", "dev" and "test". -/
theorem config_schema_parse_spec :
    (∀ v, configSchemaParse ⟨v, none⟩ = none) ∧
    (∀ idl, configSchemaParse ⟨none, some idl⟩ = some ⟨.PROD, idl⟩) ∧
    (∀ s idl, (configSchemaParse ⟨some s, some idl⟩).isSome = true ↔
      (s = "prd" ∨ s = "dev" ∨ s = "test")) := by
  refine ⟨fun v => rfl, fun idl => rfl, fun s idl => ?_⟩
  simp only [configSchemaParse, NodeEnv.fromString]
  split_ifs <;> simp [*]

end SolVesting
